import Mathlib

/-!
Verification of the browsermonitor repository (event capture, buffering and
dump engine plus its HTTP front-end and init helper).

Conventions of the embedding:
* JavaScript strings manipulated by index arithmetic (`init.mjs`) are modelled
  as `List Char` (`Str` below), with `findFrom` mirroring
  `String.prototype.indexOf(pat, start)`, `jsSlice`/`jsSliceFrom` mirroring
  `String.prototype.slice`, and `trimEnd` mirroring
  `String.prototype.trimEnd`.
* HTTP handlers from `src/http-server.mjs` are modelled as total functions
  from their request data and session state to a structured response value;
  a thrown exception would correspond to an `Except.error`, and handlers that
  cannot throw are given directly as plain functions.
* Components whose implementation lives outside the provided sources
  (the LogBuffer, the Request Correlator and the dump writer from
  `src/logging/` and `src/monitor/`) are modelled from the specification;
  each such definition carries a doc comment starting with
  "Modelled from the spec:".
-/

namespace BrowserMonitor

/-! ## Definitions: JS-string machinery, the init.mjs and
http-server.mjs embeddings, and the spec-modelled engine components -/

abbrev Str := List Char

/-- The character data of a Lean string literal, as a `Str`. -/
def str (s : String) : Str := s.data

/-- Does `pat` occur in `s` at position `i`?  (Taking `pat.length` characters
of `s` starting at `i` reproduces `pat`.) -/
def occursAt (pat s : Str) (i : Nat) : Prop := (s.drop i).take pat.length = pat

instance (pat s : Str) (i : Nat) : Decidable (occursAt pat s i) := by
  unfold occursAt; exact inferInstance

/-- Fuel-driven scan for `findFrom` (structural recursion so that the kernel
can evaluate it). -/
def findFromGo (pat s : Str) (st : Nat) : Nat → Option Nat
  | 0 => none
  | fuel + 1 =>
      if (s.drop st).take pat.length = pat then some st
      else findFromGo pat s (st + 1) fuel

/-- JS `s.indexOf(pat, st)` restricted to the argument shapes `init.mjs`
uses: the least `i ≥ st` at which `pat` occurs in `s`, `none` when there is
no occurrence (JS returns `-1` there). -/
def findFrom (pat s : Str) (st : Nat) : Option Nat :=
  findFromGo pat s st (s.length + 1 - st)

/-- JS `s.trimEnd()`: drop trailing whitespace. -/
def trimEnd (s : Str) : Str := (s.reverse.dropWhile Char.isWhitespace).reverse

/-- JS `s.slice(0, i)`. -/
def jsSlice (s : Str) (i : Nat) : Str := s.take i

/-- JS `s.slice(i)`. -/
def jsSliceFrom (s : Str) (i : Nat) : Str := s.drop i

def BEGIN_TAG : Str := str "<!-- BEGIN browser-monitor-llm-section"

def END_TAG : Str := str "<!-- END browser-monitor-llm-section"

def COMMENT_CLOSE : Str := str "-->"

def NL : Str := ['\n']

inductive SectionAction
  | appended
  | replaced
  deriving DecidableEq

/-- Function `replaceOrAppendSection` from `src/init.mjs` applied to the content of an
existing host file: either appends the trimmed template, replaces the block
between the BEGIN tag and the end of the END-tag comment line, or returns
`none` when a BEGIN tag is present without a subsequent END tag (mirroring
the `return null` in the source).  The `afterEndComment` fallback value `2`
reproduces JS `content.indexOf('-->', i)` returning `-1` plus `3`. -/
def replaceOrAppendSection (templateContent content : Str) :
    Option (Str × SectionAction) :=
  let trimmedTemplate := trimEnd templateContent
  match findFrom BEGIN_TAG content 0 with
  | none =>
      some (trimEnd content ++ str "\n\n" ++ trimmedTemplate ++ NL,
        SectionAction.appended)
  | some beginIndex =>
      match findFrom END_TAG content beginIndex with
      | none => none
      | some endTagStartIndex =>
          let afterEndComment : Nat :=
            match findFrom COMMENT_CLOSE content endTagStartIndex with
            | none => 2
            | some a => a + 3
          let endIndex : Nat :=
            match findFrom NL content afterEndComment with
            | none => content.length
            | some lineEnd => lineEnd + 1
          some (jsSlice content beginIndex ++ trimmedTemplate ++ NL ++
              jsSliceFrom content endIndex,
            SectionAction.replaced)

/-- The host-file content on disk after one `replaceOrAppendSection` call
(a `none` outcome writes nothing, so the content is unchanged). -/
def sectionResult (templateContent content : Str) : Str :=
  match replaceOrAppendSection templateContent content with
  | none => content
  | some (c', _) => c'

/-- Function `replaceOrAppendSection` including the missing-host-file guard
(`if (!fs.existsSync(hostPath)) return null`): the host file is `none` when
it does not exist. -/
def replaceOrAppendSectionFile (host : Option Str) (templateContent : Str) :
    Option (Str × SectionAction) :=
  match host with
  | none => none
  | some content => replaceOrAppendSection templateContent content

/-- First line of a string (up to the first newline). -/
def firstLine (s : Str) : Str := s.takeWhile (fun ch => ch ≠ '\n')

/-- Last line of a string (after the last newline). -/
def lastLine (s : Str) : Str := (s.reverse.takeWhile (fun ch => ch ≠ '\n')).reverse

/-- The line is a complete `BEGIN browser-monitor-llm-section` HTML comment. -/
def isBeginTagLine (l : Str) : Prop :=
  occursAt BEGIN_TAG l 0 ∧ occursAt COMMENT_CLOSE l (l.length - 3)

/-- The line is a complete `END browser-monitor-llm-section` HTML comment. -/
def isEndTagLine (l : Str) : Prop :=
  occursAt END_TAG l 0 ∧ occursAt COMMENT_CLOSE l (l.length - 3)

instance (l : Str) : Decidable (isBeginTagLine l) := by
  unfold isBeginTagLine; exact inferInstance

instance (l : Str) : Decidable (isEndTagLine l) := by
  unfold isEndTagLine; exact inferInstance

/-- A template whose first line is the BEGIN tag and whose last line is the
END tag line, but which also contains the END tag prefix on an interior
line.  Such a template satisfies the hypotheses of claim C10 as stated. -/
def dupEndTemplate : Str := str "<!-- BEGIN browser-monitor-llm-section -->\n<!-- END browser-monitor-llm-section -->\nx\n<!-- END browser-monitor-llm-section -->"

/-- A well-formed template: BEGIN tag line, one body line, END tag line. -/
def cleanTemplate : Str := str "<!-- BEGIN browser-monitor-llm-section -->\nhello\n<!-- END browser-monitor-llm-section -->"

/-- A host file content without any browser-monitor tags. -/
def hostContent : Str := str "host"

/-- JS `s.trim()`: strip whitespace on both ends. -/
def jsTrim (s : Str) : Str := trimEnd (s.dropWhile Char.isWhitespace)

/-- Constant `PAGE_WHITELIST` from `src/http-server.mjs`, lines 23–30, in source
order. -/
def PAGE_WHITELIST : List Str :=
  [str "goto", str "click", str "type", str "focus", str "hover", str "select",
   str "content", str "title", str "url",
   str "screenshot", str "pdf",
   str "setViewport", str "setDefaultTimeout", str "setDefaultNavigationTimeout",
   str "waitForSelector", str "waitForTimeout"]

/-- Outcome of the POST /puppeteer method validation chain
(src/http-server.mjs, lines 402–433). -/
inductive PuppeteerDispatch
  | invalidMethod
  | notPageMethod
  | notWhitelisted
  | forward (methodName : Str)
  deriving DecidableEq

/-- The method validation of the POST /puppeteer handler: a missing or
blank method is rejected, then methods not starting with `page.` are
rejected, then the part after `page.` is trimmed and looked up in
`PAGE_WHITELIST`; only on success is the page method invoked.  A `none`
argument models `typeof method !== 'string'`. -/
def dispatchPuppeteerMethod (method : Option Str) : PuppeteerDispatch :=
  match method with
  | none => PuppeteerDispatch.invalidMethod
  | some m =>
      if jsTrim m = [] then PuppeteerDispatch.invalidMethod
      else if m.take (str "page.").length ≠ str "page." then
        PuppeteerDispatch.notPageMethod
      else
        let methodName := jsTrim (m.drop (str "page.").length)
        if methodName = [] ∨ methodName ∉ PAGE_WHITELIST then
          PuppeteerDispatch.notWhitelisted
        else PuppeteerDispatch.forward methodName

/-- The sorted, comma-joined whitelist as it appears in the rejection
message (`[...PAGE_WHITELIST].sort().flatten(', ')`). -/
def WHITELIST_SORTED_JOINED : Str :=
  str "click, content, focus, goto, hover, pdf, screenshot, select, setDefaultNavigationTimeout, setDefaultTimeout, setViewport, title, type, url, waitForSelector, waitForTimeout"

/-- The whitelist-rejection message of the POST /puppeteer handler. -/
def whitelistRejectionMsg (m : Str) : Str :=
  str "Method \x22" ++ (m ++ (str "\x22 not allowed. Whitelist: " ++
    WHITELIST_SORTED_JOINED))

/-- The structured 400 response produced by each rejection branch of the
POST /puppeteer method validation, or the method name to forward. -/
def puppeteerValidate (method : Option Str) : Except (Nat × Str) Str :=
  match dispatchPuppeteerMethod method with
  | PuppeteerDispatch.invalidMethod =>
      Except.error (400, str "Missing or invalid \x22method\x22 (e.g. \x22page.goto\x22)")
  | PuppeteerDispatch.notPageMethod =>
      Except.error (400, str "Only \x22page.*\x22 methods are supported (e.g. \x22page.goto\x22, \x22page.click\x22)")
  | PuppeteerDispatch.notWhitelisted =>
      Except.error (400, whitelistRejectionMsg (method.getD []))
  | PuppeteerDispatch.forward name => Except.ok name

/-- Constant `MAX_BODY_BYTES` from src/http-server.mjs line 21. -/
def MAX_BODY_BYTES : Nat := 5 * 1024 * 1024

inductive ReadBodyError
  | bodyTooLarge
  deriving DecidableEq

/-- Accumulating loop of `readBody`: mirrors the `data` event handler that
adds each chunk's byte length to `size` and rejects with `BODY_TOO_LARGE`
as soon as `size` exceeds the limit, and the `end` handler that resolves
with the concatenation (src/http-server.mjs, lines 38–70).  Chunks are
byte lists. -/
def readBodyGo (limitBytes : Nat) (size : Nat) (acc : List Nat) :
    List (List Nat) → Except ReadBodyError (List Nat)
  | [] => Except.ok acc
  | chunk :: rest =>
      if size + chunk.length > limitBytes then Except.error ReadBodyError.bodyTooLarge
      else readBodyGo limitBytes (size + chunk.length) (acc ++ chunk) rest

/-- Function `readBody(req, limitBytes)` on a stream delivering `chunks`. -/
def readBody (chunks : List (List Nat)) (limitBytes : Nat) :
    Except ReadBodyError (List Nat) :=
  readBodyGo limitBytes 0 [] chunks

/-- Structured HTTP response data relevant to the claims: status code,
optional `success` flag, optional `message`, optional `error`, and whether
the handler went on to invoke a page method. -/
structure ApiResult where
  httpStatus : Nat
  success : Option Bool
  message : Option Str
  errorField : Option Str
  invokedPage : Bool
  deriving DecidableEq

/-- Body-reading phase of the POST /puppeteer handler
(src/http-server.mjs, lines 386–401): a `BODY_TOO_LARGE` rejection is
mapped to a 413 structured failure and the handler returns before any
page method is dispatched. -/
def puppeteerBodyPhase (chunks : List (List Nat)) :
    Except ApiResult (List Nat) :=
  match readBody chunks MAX_BODY_BYTES with
  | Except.error ReadBodyError.bodyTooLarge =>
      Except.error
        ⟨413, some false, none, some (str "Request body too large (max 5MB)"), false⟩
  | Except.ok raw => Except.ok raw

/-- The operations exposed to front-ends via the HTTP server. -/
inductive ApiOp
  | dump
  | status
  | clear
  | stop
  | start
  | tabs
  | tab
  deriving DecidableEq

/-- The structured response each GET handler of `createHttpServer` produces
when no browser is attached (`noBrowser`, i.e. `state().logBuffer` is null):
response literals transcribed from src/http-server.mjs (dump 174–184,
status 219–238, clear 268–277, stop 242–252, start 254–265, tabs 289–294,
tab 364–372 via the default `switchToTab` of `state()`, line 143/153).
Every branch builds a JSON value and ends the response; none throws, which
the embedding reflects by being a total function. -/
def handleNoBrowser : ApiOp → ApiResult
  | ApiOp.dump =>
      ⟨200, some false,
        some (str "No browser connected. Choose open (o) or join (j) in interactive mode, or use --open / --join."),
        none, false⟩
  | ApiOp.status =>
      ⟨200, none, some (str "No browser. Use interactive (o/j) or --open / --join."),
        none, false⟩
  | ApiOp.clear => ⟨200, some false, some (str "No browser connected."), none, false⟩
  | ApiOp.stop =>
      ⟨200, some true, some (str "No browser."), none, false⟩
  | ApiOp.start =>
      ⟨200, some true, some (str "No browser."), none, false⟩
  | ApiOp.tabs => ⟨200, none, some (str "No browser connected."), none, false⟩
  | ApiOp.tab => ⟨200, some false, none, some (str "Not available"), false⟩

/-- Digits-prefix of a string. -/
def takeDigits (s : Str) : Str := s.takeWhile Char.isDigit

/-- Decimal value of a digit string. -/
def digitsToNat (ds : Str) : Nat :=
  ds.foldl (fun acc ch => acc * 10 + (ch.toNat - 48)) 0

/-- JS `parseInt(s, 10)`: skip leading whitespace, optional sign, then a
decimal digit prefix; `none` models `NaN`. -/
def parseIntJs (s : Str) : Option Int :=
  match s.dropWhile Char.isWhitespace with
  | '-' :: rest =>
      let ds := takeDigits rest
      if ds = [] then none else some (-(digitsToNat ds : Int))
  | '+' :: rest =>
      let ds := takeDigits rest
      if ds = [] then none else some ((digitsToNat ds : Int))
  | t =>
      let ds := takeDigits t
      if ds = [] then none else some ((digitsToNat ds : Int))

/-- Computation `index = indexParam ? parseInt(indexParam, 10) : NaN`. -/
def parsedIndex (indexParam : Option Str) : Option Int :=
  match indexParam with
  | none => none
  | some s => parseIntJs s

/-- The session state the /tab endpoint can observe or modify: the buffered
console entries and request records, the `collectingPaused` flag, and which
tab is currently monitored. -/
structure TabSession where
  consoleEntries : List Str
  requests : List Str
  collectingPaused : Bool
  monitoredTab : Nat
  deriving DecidableEq

/-- Outcome of `switchToTab` (the value serialized by the /tab handler). -/
structure SwitchResult where
  success : Bool
  url : Option Str
  errorField : Option Str
  deriving DecidableEq

/-- Decimal digits of a natural number, as a `Str`. -/
def natToStr (n : Nat) : Str := (toString n).data

/-- Modelled from the spec: `switchToTab` (implemented in the monitor
modules, not under the provided sources) "revalidates the index against the
live tab list (1-based), rebinds the Correlator's event subscriptions from
the old tab to the new one, and does not retroactively reattribute
already-buffered events"; an invalid index yields a structured failure
referencing the index and changes nothing. -/
def switchToTab (tabs : List Str) (index : Nat) (st : TabSession) :
    SwitchResult × TabSession :=
  if h : 1 ≤ index ∧ index ≤ tabs.length then
    (⟨true, some (tabs.get ⟨index - 1, by omega⟩), none⟩,
      { st with monitoredTab := index })
  else
    (⟨false, none, some (str "Invalid tab index: " ++ natToStr index)⟩, st)

/-- The GET /tab handler (src/http-server.mjs, lines 350–382): parses the
`index` query parameter, rejects a missing, non-integer or non-positive
index with a 400 structured failure before touching any state, and
otherwise forwards to `switchToTab` and serializes its result. -/
def tabHandler (indexParam : Option Str) (tabs : List Str) (st : TabSession) :
    ApiResult × TabSession :=
  match parsedIndex indexParam with
  | none =>
      (⟨400, some false, none,
        some (str "Missing or invalid index. Use /tab?index=1 (1-based tab number)."),
        false⟩, st)
  | some i =>
      if i < 1 then
        (⟨400, some false, none,
          some (str "Missing or invalid index. Use /tab?index=1 (1-based tab number)."),
          false⟩, st)
      else
        let r := switchToTab tabs i.toNat st
        (⟨200, some r.1.success, none, r.1.errorField, false⟩, r.2)

/-- Buffer operations of claim C1: appends interleaved with clears. -/
inductive BufOp
  | append (entry : Str)
  | clear
  deriving DecidableEq

/-- Modelled from the spec: the Log Buffer's store of console entries;
`append` adds at the end (arrival order), `clear` atomically empties it
(spec.md §4.3). -/
def applyBufOp (buf : List Str) : BufOp → List Str
  | BufOp.append e => buf ++ [e]
  | BufOp.clear => []

/-- The buffer contents after a sequence of operations from an empty
buffer. -/
def runBuffer (ops : List BufOp) : List Str :=
  ops.foldl applyBufOp []

/-- Modelled from the spec: `snapshot()` returns an immutable point-in-time
copy of the buffer contents that never shares mutable storage with the live
buffer (spec.md §3 BufferSnapshot, §4.3). -/
def snapshot (buf : List Str) : List Str := buf

/-- Live buffer together with a previously taken snapshot value. -/
structure LiveAndSnap where
  live : List Str
  snap : List Str
  deriving DecidableEq

/-- One buffer operation performed after a snapshot was taken: it mutates
the live buffer and leaves the captured snapshot value untouched. -/
def stepAfterSnapshot (s : LiveAndSnap) (op : BufOp) : LiveAndSnap :=
  { live := applyBufOp s.live op, snap := s.snap }

/-- Running operations after a snapshot was taken. -/
def runAfterSnapshot (s : LiveAndSnap) (ops : List BufOp) : LiveAndSnap :=
  ops.foldl stepAfterSnapshot s

/-- Status of a tracked network request.  `incomplete` is the
terminal-for-reporting state used at materialization time only. -/
inductive ReqStatus
  | pending
  | completed (info : Str)
  | failed (reason : Str)
  | incomplete
  deriving DecidableEq

/-- Lifecycle events the correlator receives for one request id after the
initial "sent" event. -/
inductive ReqEvent
  | responseReceived (info : Str)
  | requestFailed (reason : Str)
  deriving DecidableEq

/-- Is the status terminal (Completed/Failed)? -/
def isTerminal : ReqStatus → Bool
  | ReqStatus.completed _ => true
  | ReqStatus.failed _ => true
  | _ => false

/-- Modelled from the spec: the Request Correlator's per-id state machine,
`Pending(sent) → Completed(...)` or `Pending(sent) → Failed(...)`;
transitions are idempotent, a duplicate event for an already-terminal id is
ignored, and on a response/failure race the first event wins and the second
is discarded (spec.md §4.2). -/
def correlatorStep (st : ReqStatus) (e : ReqEvent) : ReqStatus :=
  match st with
  | ReqStatus.pending =>
      match e with
      | ReqEvent.responseReceived i => ReqStatus.completed i
      | ReqEvent.requestFailed r => ReqStatus.failed r
  | other => other

/-- Modelled from the spec: materialization of a tracked request status at
dump time — a request that never reached a terminal state is materialized
with status `Incomplete`, a valid terminal-for-reporting state distinct from
Failed, and never left `Pending` in a snapshot (spec.md §4.2, §8). -/
def materializeStatus : ReqStatus → ReqStatus
  | ReqStatus.pending => ReqStatus.incomplete
  | s => s

/-- The artifacts a dump produces (spec.md §4.4). -/
inductive Artifact
  | consoleOverview
  | networkOverview
  | requestDetails
  | cookies
  | dom
  | screenshot
  deriving DecidableEq

/-- Inputs of one dump: the buffer snapshot and the outcome of each fresh
page-state query (an `Except` error is a failed query with its reason). -/
structure DumpInputs where
  snapshotConsole : List Str
  snapshotRequests : List Str
  cookiesResult : Except Str Str
  domResult : Except Str Str
  screenshotResult : Except Str Str

/-- A dump result enumerating written artifacts and skipped artifacts with
their reasons. -/
structure DumpResult where
  written : List Artifact
  skipped : List (Artifact × Str)
  deriving DecidableEq

/-- Fresh-query success contributes its artifact to the written list. -/
def freshWritten (a : Artifact) : Except Str Str → List Artifact
  | Except.ok _ => [a]
  | Except.error _ => []

/-- Fresh-query failure contributes a skip entry with its reason. -/
def freshSkipped (a : Artifact) : Except Str Str → List (Artifact × Str)
  | Except.ok _ => []
  | Except.error e => [(a, e)]

/-- Modelled from the spec: `dumpBuffersToFiles` — the buffer-derived files
(console overview, network overview, per-request details) are always
written; each fresh query (cookies, DOM, screenshot) that fails is skipped
and reported with its reason while the others are unaffected; the dump
never throws and returns a result object enumerating which artifacts
succeeded and which were skipped and why (spec.md §4.4).  Totality of this
function is the never-throws contract. -/
def dumpBuffersToFiles (inp : DumpInputs) : DumpResult :=
  { written :=
      [Artifact.consoleOverview, Artifact.networkOverview, Artifact.requestDetails] ++
      freshWritten Artifact.cookies inp.cookiesResult ++
      freshWritten Artifact.dom inp.domResult ++
      freshWritten Artifact.screenshot inp.screenshotResult,
    skipped :=
      freshSkipped Artifact.cookies inp.cookiesResult ++
      freshSkipped Artifact.dom inp.domResult ++
      freshSkipped Artifact.screenshot inp.screenshotResult }

/-- The GET /dump handler wrapper (src/http-server.mjs, lines 185–216): a
successful dump is a 200 success response, an exception from the dump
machinery is caught and returned as a 500 structured failure — never
rethrown to the HTTP client. -/
def dumpHandler (outcome : Except Str DumpResult) : ApiResult :=
  match outcome with
  | Except.ok _ => ⟨200, some true, some (str "Dump completed. Read the files below."), none, false⟩
  | Except.error e => ⟨500, some false, none, some e, false⟩

/-- In-memory buffer of the lazy mode. -/
structure LazyBuffer where
  consoleEntries : List Str
  requests : List Str
  deriving DecidableEq

/-- The files a dump derives from the buffer: console overview (one line
per entry, arrival order), network overview (one line per request,
first-seen order), one detail file per request id. -/
structure DumpFiles where
  consoleLog : List Str
  networkLog : List Str
  detailFiles : List Str
  deriving DecidableEq

/-- Deterministic rendering of the buffer-derived dump files from buffer
contents (spec.md §4.4). -/
def renderDump (b : LazyBuffer) : DumpFiles :=
  ⟨b.consoleEntries, b.requests, b.requests⟩

/-- Modelled from the spec and from the `src/monitor.mjs` module header
("Press 'd' to dump logs to files (auto-clears buffer after)"): in lazy
mode a dump writes the files derived from the current buffer and then
clears the buffer. -/
def dumpOp (b : LazyBuffer) : DumpFiles × LazyBuffer :=
  (renderDump b, ⟨[], []⟩)

/-- The method string of claim C6's counterexample. -/
def spacedMethod : Str := str "page. goto"

/-! ## Theorems -/

theorem findFrom_eq (pat s : Str) (st : Nat) :
    findFrom pat s st =
      if st > s.length then none
      else if (s.drop st).take pat.length = pat then some st
      else findFrom pat s (st + 1) := by
  unfold findFrom
  by_cases h : st > s.length
  · rw [if_pos h]
    have h0 : s.length + 1 - st = 0 := by omega
    rw [h0]
    rfl
  · rw [if_neg h]
    have h1 : s.length + 1 - st = (s.length + 1 - (st + 1)) + 1 := by omega
    rw [h1]
    rfl

theorem findFrom_le_length {pat s : Str} {st i : Nat}
    (h : findFrom pat s st = some i) : i ≤ s.length := by
  rw [findFrom_eq] at h
  split_ifs at h with hgt hocc
  · simp only [Option.some.injEq] at h
    omega
  · exact findFrom_le_length h
termination_by s.length + 1 - st

theorem findFrom_ge_start {pat s : Str} {st i : Nat}
    (h : findFrom pat s st = some i) : st ≤ i := by
  rw [findFrom_eq] at h
  split_ifs at h with hgt hocc
  · simp only [Option.some.injEq] at h
    omega
  · have := findFrom_ge_start h
    omega
termination_by s.length + 1 - st

theorem findFrom_occurs {pat s : Str} {st i : Nat}
    (h : findFrom pat s st = some i) : occursAt pat s i := by
  rw [findFrom_eq] at h
  split_ifs at h with hgt hocc
  · simp only [Option.some.injEq] at h
    subst h
    exact hocc
  · exact findFrom_occurs h
termination_by s.length + 1 - st

theorem findFrom_least {pat s : Str} {st i : Nat}
    (h : findFrom pat s st = some i) :
    ∀ j, st ≤ j → j < i → ¬ occursAt pat s j := by
  rw [findFrom_eq] at h
  split_ifs at h with hgt hocc
  · simp only [Option.some.injEq] at h
    intro j h1 h2
    omega
  · intro j h1 h2 hj
    rcases Nat.eq_or_lt_of_le h1 with heq | hlt
    · exact hocc (heq ▸ hj)
    · exact findFrom_least h j hlt h2 hj
termination_by s.length + 1 - st

theorem findFrom_none {pat s : Str} {st : Nat}
    (h : findFrom pat s st = none) :
    ∀ j, st ≤ j → j ≤ s.length → ¬ occursAt pat s j := by
  rw [findFrom_eq] at h
  split_ifs at h with hgt hocc
  · intro j h1 h2
    omega
  · intro j h1 h2 hj
    rcases Nat.eq_or_lt_of_le h1 with heq | hlt
    · exact hocc (heq ▸ hj)
    · exact findFrom_none h j hlt h2 hj
termination_by s.length + 1 - st

theorem findFrom_some_of_occurs {pat s : Str} {st j : Nat}
    (h1 : st ≤ j) (h2 : j ≤ s.length) (hocc : occursAt pat s j) :
    ∃ i, findFrom pat s st = some i := by
  rw [findFrom_eq]
  split_ifs with hgt hx
  · omega
  · exact ⟨st, rfl⟩
  · rcases Nat.eq_or_lt_of_le h1 with heq | hlt
    · exact absurd (heq ▸ hocc) hx
    · exact findFrom_some_of_occurs hlt h2 hocc
termination_by s.length + 1 - st

theorem occursAt_add_le {pat s : Str} {i : Nat} (hp : pat ≠ [])
    (h : occursAt pat s i) : i + pat.length ≤ s.length := by
  have hlen := congrArg List.length h
  simp only [List.length_take, List.length_drop] at hlen
  have hpos : 0 < pat.length := List.length_pos.mpr hp
  omega

theorem findFrom_eq_some_intro {pat s : Str} {st i : Nat} (hp : pat ≠ [])
    (h1 : st ≤ i) (h2 : occursAt pat s i)
    (h3 : ∀ j, st ≤ j → j < i → ¬ occursAt pat s j) :
    findFrom pat s st = some i := by
  have hle : i ≤ s.length := by
    have := occursAt_add_le hp h2
    omega
  obtain ⟨i', hi'⟩ := findFrom_some_of_occurs h1 hle h2
  have hii : i' = i := by
    rcases Nat.lt_trichotomy i' i with hlt | heq | hgt
    · exact absurd (findFrom_occurs hi') (h3 i' (findFrom_ge_start hi') hlt)
    · exact heq
    · exact absurd h2 (findFrom_least hi' i h1 hgt)
  rw [hi', hii]

/-- Occurrence inside the middle block of an `A ++ (B ++ C)` decomposition,
when the occurrence fits entirely in `B`. -/
theorem occursAt_middle_iff {pat A B C : Str} {k : Nat}
    (hfit : k + pat.length ≤ B.length) :
    occursAt pat (A ++ (B ++ C)) (A.length + k) ↔ occursAt pat B k := by
  unfold occursAt
  have h1 : (A ++ (B ++ C)).drop (A.length + k) = (B ++ C).drop k := by
    simp [List.drop_append]
  have h2 : (B ++ C).drop k = B.drop k ++ C :=
    List.drop_append_of_le_length (by omega)
  have h3 : (B.drop k ++ C).take pat.length = (B.drop k).take pat.length :=
    List.take_append_of_le_length (by simp [List.length_drop]; omega)
  rw [h1, h2, h3]

/-- Two strings that agree on their first `m` characters carry the same
occurrences that fit below `m`. -/
theorem occursAt_of_take_agree {pat s₁ s₂ : Str} {m i : Nat}
    (hag : s₁.take m = s₂.take m) (hfit : i + pat.length ≤ m) :
    occursAt pat s₁ i ↔ occursAt pat s₂ i := by
  unfold occursAt
  have key : ∀ s : Str, (s.drop i).take pat.length =
      ((s.take m).drop i).take pat.length := by
    intro s
    rw [List.drop_take, List.take_take]
    congr 1
    omega
  rw [key s₁, key s₂, hag]

theorem occursAt_getElem {pat s : Str} {i k : Nat}
    (h : occursAt pat s i) (hk : k < pat.length) : s[i + k]? = pat[k]? := by
  unfold occursAt at h
  have := congrArg (fun l => l[k]?) h
  simp only [List.getElem?_take, hk, if_true, List.getElem?_drop] at this
  exact this

/-- A pattern not containing character `ch` cannot occur across a position
where the string holds `ch`. -/
theorem not_occursAt_of_getElem_not_mem {pat s : Str} {i p : Nat} {ch : Char}
    (hp : s[p]? = some ch) (hch : ch ∉ pat)
    (h1 : i ≤ p) (h2 : p < i + pat.length) : ¬ occursAt pat s i := by
  intro hocc
  have hk : p - i < pat.length := by omega
  have := occursAt_getElem hocc hk
  rw [show i + (p - i) = p by omega, hp] at this
  exact hch (List.getElem?_mem this.symm)

theorem occursAt_singleton {s : Str} {p : Nat} {ch : Char} :
    occursAt [ch] s p ↔ s[p]? = some ch := by
  unfold occursAt
  have hidx : s[p]? = (s.drop p)[0]? := by
    rw [List.getElem?_drop s p 0, Nat.add_zero]
  rw [hidx]
  cases h : s.drop p with
  | nil => simp
  | cons x xs => simp

/-- Function `trimEnd` splits off a whitespace suffix. -/
theorem trimEnd_append_ws (s : Str) :
    s = trimEnd s ++ (s.reverse.takeWhile Char.isWhitespace).reverse := by
  unfold trimEnd
  conv_lhs => rw [← List.reverse_reverse s,
    ← List.takeWhile_append_dropWhile Char.isWhitespace s.reverse]
  rw [List.reverse_append]

theorem take_trimEnd_length (s : Str) : s.take (trimEnd s).length = trimEnd s := by
  obtain ⟨t, ws, ht, hws⟩ :
      ∃ t ws, trimEnd s = t ∧ s = t ++ ws :=
    ⟨trimEnd s, _, rfl, trimEnd_append_ws s⟩
  rw [ht, hws, List.take_append_of_le_length (Nat.le_refl _), List.take_length]

theorem BEGIN_TAG_length : BEGIN_TAG.length = 38 := by decide

theorem END_TAG_length : END_TAG.length = 36 := by decide

theorem COMMENT_CLOSE_length : COMMENT_CLOSE.length = 3 := by decide

theorem newline_not_mem_END_TAG : ('\n' : Char) ∉ END_TAG := by decide

/-- Core lemma: applying `replaceOrAppendSection` to a content of the shape
`P ++ trimmedTemplate ++ "\n" ++ R`, where the template block is well formed
(starts with the BEGIN tag, contains the END tag prefix exactly once, and its
only comment close at or after the END tag is the final one) and no BEGIN tag
occurs inside `P` or across its boundary, replaces the block with itself. -/
theorem replaceOrAppendSection_block (T P R : Str) (u : Nat)
    (hB : occursAt BEGIN_TAG (trimEnd T) 0)
    (hclose : occursAt COMMENT_CLOSE (trimEnd T) ((trimEnd T).length - 3))
    (hu : occursAt END_TAG (trimEnd T) u)
    (huniq : ∀ j, j ≤ (trimEnd T).length →
      occursAt END_TAG (trimEnd T) j → j = u)
    (hcuniq : ∀ j, u ≤ j → j ≤ (trimEnd T).length →
      occursAt COMMENT_CLOSE (trimEnd T) j → j = (trimEnd T).length - 3)
    (hnoB : ∀ j, j < P.length →
      ¬ occursAt BEGIN_TAG (P ++ (trimEnd T ++ (NL ++ R))) j) :
    replaceOrAppendSection T (P ++ (trimEnd T ++ (NL ++ R))) =
      some (P ++ (trimEnd T ++ (NL ++ R)), SectionAction.replaced) := by
  have hB38 := BEGIN_TAG_length
  have hE36 := END_TAG_length
  have hC3 := COMMENT_CLOSE_length
  have hBne : BEGIN_TAG ≠ ([] : Str) := by decide
  have hEne : END_TAG ≠ ([] : Str) := by decide
  have hCne : COMMENT_CLOSE ≠ ([] : Str) := by decide
  have hTB : BEGIN_TAG.length ≤ (trimEnd T).length := by
    have := occursAt_add_le hBne hB
    omega
  have huT : u + END_TAG.length ≤ (trimEnd T).length :=
    occursAt_add_le hEne hu
  -- the newline right after the template block
  have hnl : (P ++ (trimEnd T ++ (NL ++ R)))[P.length + (trimEnd T).length]? =
      some '\n' := by
    rw [show P ++ (trimEnd T ++ (NL ++ R)) = (P ++ trimEnd T) ++ (NL ++ R) by
      simp [List.append_assoc]]
    rw [show P.length + (trimEnd T).length = (P ++ trimEnd T).length by simp]
    rw [List.getElem?_append_right (Nat.le_refl _)]
    simp [NL]
  have hfindB : findFrom BEGIN_TAG (P ++ (trimEnd T ++ (NL ++ R))) 0 =
      some P.length := by
    apply findFrom_eq_some_intro hBne (Nat.zero_le _)
    · have h0 : occursAt BEGIN_TAG (P ++ (trimEnd T ++ (NL ++ R)))
          (P.length + 0) := (occursAt_middle_iff (by omega)).mpr hB
      simpa using h0
    · intro j _ hjP
      exact hnoB j hjP
  have hfindE : findFrom END_TAG (P ++ (trimEnd T ++ (NL ++ R)))
      P.length = some (P.length + u) := by
    apply findFrom_eq_some_intro hEne (Nat.le_add_right _ _)
    · exact (occursAt_middle_iff (by omega)).mpr hu
    · intro j hj1 hj2 hocc
      by_cases hfit : (j - P.length) + END_TAG.length ≤ (trimEnd T).length
      · have hocc' : occursAt END_TAG (trimEnd T) (j - P.length) := by
          rw [show j = P.length + (j - P.length) by omega] at hocc
          exact (occursAt_middle_iff hfit).mp hocc
        have := huniq (j - P.length) (by omega) hocc'
        omega
      · exact not_occursAt_of_getElem_not_mem hnl newline_not_mem_END_TAG
          (by omega) (by omega) hocc
  have hfindC : findFrom COMMENT_CLOSE (P ++ (trimEnd T ++ (NL ++ R)))
      (P.length + u) = some (P.length + ((trimEnd T).length - 3)) := by
    apply findFrom_eq_some_intro hCne (by omega)
    · exact (occursAt_middle_iff (by omega)).mpr hclose
    · intro j hj1 hj2 hocc
      have hfit : (j - P.length) + COMMENT_CLOSE.length ≤ (trimEnd T).length := by
        omega
      have hocc' : occursAt COMMENT_CLOSE (trimEnd T) (j - P.length) := by
        rw [show j = P.length + (j - P.length) by omega] at hocc
        exact (occursAt_middle_iff hfit).mp hocc
      have := hcuniq (j - P.length) (by omega) (by omega) hocc'
      omega
  have hfindN : findFrom NL (P ++ (trimEnd T ++ (NL ++ R)))
      (P.length + (trimEnd T).length) = some (P.length + (trimEnd T).length) := by
    apply findFrom_eq_some_intro (by decide) (Nat.le_refl _)
    · exact occursAt_singleton.mpr hnl
    · intro j h1 h2
      omega
  have htake : (P ++ (trimEnd T ++ (NL ++ R))).take P.length = P :=
    List.take_left P _
  have hdrop : (P ++ (trimEnd T ++ (NL ++ R))).drop
      (P.length + (trimEnd T).length + 1) = R := by
    rw [show P ++ (trimEnd T ++ (NL ++ R)) = (P ++ (trimEnd T ++ NL)) ++ R by
      simp [List.append_assoc]]
    rw [show P.length + (trimEnd T).length + 1 = (P ++ (trimEnd T ++ NL)).length by
      simp [NL]; omega]
    exact List.drop_left _ _
  unfold replaceOrAppendSection
  rw [hfindB]
  dsimp only
  rw [hfindE]
  dsimp only
  rw [hfindC]
  dsimp only
  rw [show P.length + ((trimEnd T).length - 3) + 3 =
    P.length + (trimEnd T).length from by omega]
  rw [hfindN]
  dsimp only
  unfold jsSlice jsSliceFrom
  rw [htake, hdrop]
  simp [List.append_assoc]

theorem trimEnd_length_le (c : Str) : (trimEnd c).length ≤ c.length := by
  conv_rhs => rw [trimEnd_append_ws c]
  simp

theorem take_of_occursAt {pat c : Str} {b : Nat} (h : occursAt pat c b) :
    (c.drop b).take pat.length = pat := h

theorem newline_not_mem_BEGIN_TAG : ('\n' : Char) ∉ BEGIN_TAG := by decide

/-- No BEGIN tag occurs strictly inside the `trimEnd c ++ "\n\n"` prefix of the
content produced by the append branch, when `c` itself has no BEGIN tag. -/
theorem append_branch_no_begin (T c : Str)
    (hfind : findFrom BEGIN_TAG c 0 = none) :
    ∀ j, j < (trimEnd c ++ str "\n\n").length →
      ¬ occursAt BEGIN_TAG
        ((trimEnd c ++ str "\n\n") ++ (trimEnd T ++ (NL ++ []))) j := by
  have hB38 := BEGIN_TAG_length
  have hnn : ∀ k, k < 2 → ((trimEnd c ++ str "\n\n") ++ (trimEnd T ++ (NL ++ [])))[(trimEnd c).length + k]? = some '\n' := by
    intro k hk
    rw [show (trimEnd c ++ str "\n\n") ++ (trimEnd T ++ (NL ++ [])) =
      trimEnd c ++ (str "\n\n" ++ (trimEnd T ++ (NL ++ []))) by
        simp [List.append_assoc]]
    rw [List.getElem?_append_right (Nat.le_add_right _ _),
      Nat.add_sub_cancel_left]
    rw [List.getElem?_append_left (show k < (str "\n\n").length by
      simpa [str] using hk)]
    interval_cases k
    · decide
    · decide
  intro j hj hocc
  have hjlen : j < (trimEnd c).length + 2 := by
    simpa [str] using hj
  by_cases hfit : j + BEGIN_TAG.length ≤ (trimEnd c).length
  · have hagree : ((trimEnd c ++ str "\n\n") ++ (trimEnd T ++ (NL ++ []))).take
        (trimEnd c).length = c.take (trimEnd c).length := by
      rw [take_trimEnd_length c]
      rw [show (trimEnd c ++ str "\n\n") ++ (trimEnd T ++ (NL ++ [])) =
        trimEnd c ++ (str "\n\n" ++ (trimEnd T ++ (NL ++ []))) by
          simp [List.append_assoc]]
      exact List.take_left _ _
    have hocc_c : occursAt BEGIN_TAG c j :=
      (occursAt_of_take_agree hagree hfit).mp hocc
    have hjc : j ≤ c.length := by
      have := trimEnd_length_le c
      omega
    exact findFrom_none hfind j (Nat.zero_le _) hjc hocc_c
  · rcases Nat.lt_or_ge j (trimEnd c).length with hj2 | hj2
    · exact not_occursAt_of_getElem_not_mem
        (hnn 0 (by omega)) newline_not_mem_BEGIN_TAG (by omega) (by omega) hocc
    · exact not_occursAt_of_getElem_not_mem
        (hnn (j - (trimEnd c).length) (by omega)) newline_not_mem_BEGIN_TAG
        (by omega) (by omega) hocc

/-- No BEGIN tag occurs strictly inside the preserved prefix `c.take b` of the
content produced by the replace branch, when `b` is the first BEGIN tag
occurrence in `c`. -/
theorem replace_branch_no_begin (T c R : Str) {b : Nat}
    (hfind : findFrom BEGIN_TAG c 0 = some b)
    (hB : occursAt BEGIN_TAG (trimEnd T) 0) :
    ∀ j, j < (c.take b).length →
      ¬ occursAt BEGIN_TAG
        ((c.take b) ++ (trimEnd T ++ (NL ++ R))) j := by
  have hBne : BEGIN_TAG ≠ ([] : Str) := by decide
  have hoccB : occursAt BEGIN_TAG c b := findFrom_occurs hfind
  have hble : b + BEGIN_TAG.length ≤ c.length := occursAt_add_le hBne hoccB
  have hTB : BEGIN_TAG.length ≤ (trimEnd T).length := by
    have := occursAt_add_le hBne hB
    omega
  have htb : (c.take b).length = b := by
    simp [List.length_take]
    omega
  intro j hj hocc
  rw [htb] at hj
  have hagree : ((c.take b) ++ (trimEnd T ++ (NL ++ R))).take
      (b + BEGIN_TAG.length) =
      c.take (b + BEGIN_TAG.length) := by
    have h1 : ((c.take b) ++ (trimEnd T ++ (NL ++ R))).take
        ((c.take b).length + BEGIN_TAG.length) =
        c.take b ++ (trimEnd T ++ (NL ++ R)).take BEGIN_TAG.length :=
      List.take_append _
    rw [htb] at h1
    have h2 : (trimEnd T ++ (NL ++ R)).take BEGIN_TAG.length =
        (trimEnd T).take BEGIN_TAG.length :=
      List.take_append_of_le_length hTB
    have h3 : (trimEnd T).take BEGIN_TAG.length = BEGIN_TAG := by
      have := take_of_occursAt hB
      simpa using this
    have h4 : c.take (b + BEGIN_TAG.length) =
        c.take b ++ (c.drop b).take BEGIN_TAG.length :=
      List.take_add c b BEGIN_TAG.length
    have h5 : (c.drop b).take BEGIN_TAG.length = BEGIN_TAG :=
      take_of_occursAt hoccB
    rw [h1, h2, h3, h4, h5]
  have hocc_c : occursAt BEGIN_TAG c j :=
    (occursAt_of_take_agree hagree (by omega)).mp hocc
  exact findFrom_least hfind j (Nat.zero_le _) hj hocc_c

theorem replaceOrAppendSection_idem_aux (templateContent c : Str) (u : Nat)
    (hB : occursAt BEGIN_TAG (trimEnd templateContent) 0)
    (hclose : occursAt COMMENT_CLOSE (trimEnd templateContent)
      ((trimEnd templateContent).length - 3))
    (hu : occursAt END_TAG (trimEnd templateContent) u)
    (huniq : ∀ j, j ≤ (trimEnd templateContent).length →
      occursAt END_TAG (trimEnd templateContent) j → j = u)
    (hcuniq : ∀ j, u ≤ j → j ≤ (trimEnd templateContent).length →
      occursAt COMMENT_CLOSE (trimEnd templateContent) j →
      j = (trimEnd templateContent).length - 3) :
    sectionResult templateContent (sectionResult templateContent c) =
      sectionResult templateContent c := by
  cases hfind : findFrom BEGIN_TAG c 0 with
  | none =>
    have happ : replaceOrAppendSection templateContent c =
        some (trimEnd c ++ str "\n\n" ++ trimEnd templateContent ++ NL,
          SectionAction.appended) := by
      unfold replaceOrAppendSection
      rw [hfind]
    have hres1 : sectionResult templateContent c =
        trimEnd c ++ str "\n\n" ++ trimEnd templateContent ++ NL := by
      unfold sectionResult
      rw [happ]
    have hshape : trimEnd c ++ str "\n\n" ++ trimEnd templateContent ++ NL =
        (trimEnd c ++ str "\n\n") ++ (trimEnd templateContent ++ (NL ++ [])) := by
      simp [List.append_assoc]
    have hblock := replaceOrAppendSection_block templateContent
      (trimEnd c ++ str "\n\n") [] u hB hclose hu huniq hcuniq
      (append_branch_no_begin templateContent c hfind)
    have hres2 : sectionResult templateContent
        ((trimEnd c ++ str "\n\n") ++ (trimEnd templateContent ++ (NL ++ []))) =
        (trimEnd c ++ str "\n\n") ++ (trimEnd templateContent ++ (NL ++ [])) := by
      unfold sectionResult
      rw [hblock]
    rw [hres1, hshape, hres2]
  | some b =>
    cases hfindE : findFrom END_TAG c b with
    | none =>
      have happ : replaceOrAppendSection templateContent c = none := by
        unfold replaceOrAppendSection
        rw [hfind]
        dsimp only
        rw [hfindE]
      have hres : sectionResult templateContent c = c := by
        unfold sectionResult
        rw [happ]
      rw [hres]
      exact hres
    | some e =>
      obtain ⟨E, happ⟩ : ∃ E, replaceOrAppendSection templateContent c =
          some (jsSlice c b ++ trimEnd templateContent ++ NL ++ jsSliceFrom c E,
            SectionAction.replaced) := by
        unfold replaceOrAppendSection
        rw [hfind]
        dsimp only
        rw [hfindE]
        dsimp only
        exact ⟨_, rfl⟩
      have hres1 : sectionResult templateContent c =
          jsSlice c b ++ trimEnd templateContent ++ NL ++ jsSliceFrom c E := by
        unfold sectionResult
        rw [happ]
      have hshape : jsSlice c b ++ trimEnd templateContent ++ NL ++
          jsSliceFrom c E =
          (c.take b) ++ (trimEnd templateContent ++ (NL ++ c.drop E)) := by
        unfold jsSlice jsSliceFrom
        simp [List.append_assoc]
      have hblock := replaceOrAppendSection_block templateContent
        (c.take b) (c.drop E) u hB hclose hu huniq hcuniq
        (replace_branch_no_begin templateContent c (c.drop E) hfind hB)
      have hres2 : sectionResult templateContent
          ((c.take b) ++ (trimEnd templateContent ++ (NL ++ c.drop E))) =
          (c.take b) ++ (trimEnd templateContent ++ (NL ++ c.drop E)) := by
        unfold sectionResult
        rw [hblock]
      rw [hres1, hshape, hres2]

/-- Claim C10, counterexample: `replaceOrAppendSection` is NOT idempotent for
every template whose first line is the BEGIN tag and whose last line is the
END tag line.  With a template that carries a second END tag prefix on an
interior line, the first application appends the block, and the second
application cuts the block at the interior END tag line, duplicating the
template's tail, so the content after two applications differs from the
content after one. -/
theorem replaceOrAppendSection_idem_counterexample :
    isBeginTagLine (firstLine dupEndTemplate) ∧
    isEndTagLine (lastLine dupEndTemplate) ∧
    sectionResult dupEndTemplate (sectionResult dupEndTemplate hostContent) ≠
      sectionResult dupEndTemplate hostContent := by
  set_option maxRecDepth 10000 in decide

/-- Claim C10 (amended): for every existing host file content `c` and every
template whose trimmed content starts with the BEGIN tag, ends with an HTML
comment close, contains the END tag prefix exactly once (at position `u`,
on its last line), and whose only comment close at or after `u` is the final
one, applying `replaceOrAppendSection` twice yields the same file content as
applying it once; and if the host file does not exist the function returns
`none` and writes nothing. -/
theorem replaceOrAppendSection_idem (templateContent c : Str) (u : Nat)
    (hB : occursAt BEGIN_TAG (trimEnd templateContent) 0)
    (hclose : occursAt COMMENT_CLOSE (trimEnd templateContent)
      ((trimEnd templateContent).length - 3))
    (hu : occursAt END_TAG (trimEnd templateContent) u)
    (huniq : ∀ j, j ≤ (trimEnd templateContent).length →
      occursAt END_TAG (trimEnd templateContent) j → j = u)
    (hcuniq : ∀ j, u ≤ j → j ≤ (trimEnd templateContent).length →
      occursAt COMMENT_CLOSE (trimEnd templateContent) j →
      j = (trimEnd templateContent).length - 3) :
    sectionResult templateContent (sectionResult templateContent c) =
      sectionResult templateContent c ∧
    replaceOrAppendSectionFile none templateContent = none :=
  ⟨replaceOrAppendSection_idem_aux templateContent c u hB hclose hu huniq hcuniq,
    rfl⟩

/-- Witness for claim C10's amended theorem at a concrete well-formed
template and host. -/
theorem replaceOrAppendSection_idem_witness :
    sectionResult cleanTemplate (sectionResult cleanTemplate hostContent) =
      sectionResult cleanTemplate hostContent ∧
    replaceOrAppendSectionFile none cleanTemplate = none :=
  replaceOrAppendSection_idem cleanTemplate hostContent 49
    (by decide) (by decide) (by decide)
    (by set_option maxRecDepth 10000 in decide)
    (by set_option maxRecDepth 10000 in decide)

/-- Occurrence carried into the right part of an append. -/
theorem occursAt_append_right (A : Str) {pat C : Str} {i : Nat}
    (h : occursAt pat C i) : occursAt pat (A ++ C) (A.length + i) := by
  unfold occursAt at h ⊢
  rw [List.drop_append]
  exact h

/-- Claim C1: for every sequence of append calls interleaved with one
`snapshot()` call, the returned snapshot contains exactly the entries
appended strictly before the snapshot call, in arrival order, and the
captured snapshot value is unchanged by any append or clear performed after
the snapshot is taken. -/
theorem logBuffer_snapshot_exact_and_immutable (entries : List Str)
    (later : List BufOp) :
    snapshot (runBuffer (entries.map BufOp.append)) = entries ∧
    (runAfterSnapshot
      ⟨runBuffer (entries.map BufOp.append),
        snapshot (runBuffer (entries.map BufOp.append))⟩ later).snap = entries := by
  have key : ∀ (es : List Str) (acc : List Str),
      (es.map BufOp.append).foldl applyBufOp acc = acc ++ es := by
    intro es
    induction es with
    | nil => intro acc; simp
    | cons e es ih =>
        intro acc
        simp only [List.map_cons, List.foldl_cons, applyBufOp, ih]
        simp
  have h1 : runBuffer (entries.map BufOp.append) = entries := by
    unfold runBuffer
    rw [key]
    simp
  have h2 : ∀ (ops : List BufOp) (s : LiveAndSnap),
      (runAfterSnapshot s ops).snap = s.snap := by
    intro ops
    induction ops with
    | nil => intro s; rfl
    | cons op ops ih =>
        intro s
        unfold runAfterSnapshot at ih ⊢
        rw [List.foldl_cons, ih]
        rfl
  constructor
  · rw [show snapshot (runBuffer (entries.map BufOp.append)) =
      runBuffer (entries.map BufOp.append) from rfl, h1]
  · rw [h2]
    rw [show snapshot (runBuffer (entries.map BufOp.append)) =
      runBuffer (entries.map BufOp.append) from rfl, h1]

/-- Claim C2: once a request record's status is terminal (Completed or
Failed), no subsequent lifecycle event changes it; in particular a
duplicate terminal event for the same id is a no-op. -/
theorem correlator_terminal_absorbing (st : ReqStatus) (e : ReqEvent)
    (h : isTerminal st = true) : correlatorStep st e = st := by
  cases st with
  | pending => simp [isTerminal] at h
  | completed i => rfl
  | failed r => rfl
  | incomplete => simp [isTerminal] at h

/-- Witness for claim C2: a duplicate "response received" event for an
already-Completed record leaves the record exactly as it was. -/
theorem correlator_terminal_absorbing_witness :
    correlatorStep (ReqStatus.completed (str "200 OK"))
      (ReqEvent.responseReceived (str "duplicate")) =
      ReqStatus.completed (str "200 OK") :=
  correlator_terminal_absorbing _ _ (by decide)

/-- Claim C8: a request that received "sent" (so its tracked status is
`pending`) and no terminal event is materialized as `Incomplete` — a state
distinct from `Failed` — and no materialized record ever has status
`Pending`. -/
theorem materialize_incomplete_never_pending :
    materializeStatus ReqStatus.pending = ReqStatus.incomplete ∧
    (∀ r, ReqStatus.incomplete ≠ ReqStatus.failed r) ∧
    (∀ s, materializeStatus s ≠ ReqStatus.pending) := by
  refine ⟨rfl, ?_, ?_⟩
  · intro r h
    exact ReqStatus.noConfusion h
  · intro s
    cases s <;> simp [materializeStatus]

/-- Claim C7, counterexample: in lazy mode a dump auto-clears the buffer
(src/monitor.mjs header), so calling dump twice with no new events between
the calls does NOT produce identical overview files when the buffer was
nonempty: the second dump's files reflect an empty buffer. -/
theorem dump_twice_differs_counterexample :
    (dumpOp (dumpOp ⟨[str "a"], []⟩).2).1 ≠ (dumpOp ⟨[str "a"], []⟩).1 := by
  decide

/-- Claim C7 (amended): the dump output is a deterministic function of the
buffer contents — two dumps over equal contents produce byte-identical
files — but a lazy-mode dump clears the buffer, so an immediately following
second dump renders the empty buffer, and the two dumps' files coincide
exactly when the buffer was already empty. -/
theorem dump_deterministic_auto_clear (b b₂ : LazyBuffer)
    (hc : b.consoleEntries = b₂.consoleEntries)
    (hr : b.requests = b₂.requests) :
    (dumpOp b).1 = (dumpOp b₂).1 ∧
    (dumpOp (dumpOp b).2).1 = renderDump ⟨[], []⟩ ∧
    ((dumpOp b).1 = (dumpOp (dumpOp b).2).1 ↔ b = ⟨[], []⟩) := by
  obtain ⟨c1, r1⟩ := b
  obtain ⟨c2, r2⟩ := b₂
  simp only at hc hr
  subst hc
  subst hr
  refine ⟨rfl, rfl, ?_⟩
  simp [dumpOp, renderDump, DumpFiles.mk.injEq, LazyBuffer.mk.injEq]

/-- Witness for claim C7's amended theorem at a concrete one-entry
buffer. -/
theorem dump_deterministic_auto_clear_witness :
    (dumpOp ⟨[str "a"], []⟩).1 = (dumpOp ⟨[str "a"], []⟩).1 ∧
    (dumpOp (dumpOp ⟨[str "a"], []⟩).2).1 = renderDump ⟨[], []⟩ ∧
    ((dumpOp ⟨[str "a"], []⟩).1 = (dumpOp (dumpOp ⟨[str "a"], []⟩).2).1 ↔
      (⟨[str "a"], []⟩ : LazyBuffer) = ⟨[], []⟩) :=
  dump_deterministic_auto_clear _ _ rfl rfl

/-- Claim C3, counterexample: with no browser attached, the GET /stop
(pause) handler does not return a failure value: it unconditionally reports
success true (src/http-server.mjs, lines 242-252), so "any operation
returns a failure value, not success" is false at the pause operation. -/
theorem noBrowser_stop_reports_success :
    (handleNoBrowser ApiOp.stop).success = some true ∧
    (handleNoBrowser ApiOp.stop).success ≠ some false := by
  decide

/-- Claim C3 (amended): every operation invoked with no browser attached
returns a structured result and never throws (each handler is a total
function ending in a JSON response): dump, clear and switchTab return a
failure value (success false); pause (/stop) and resume (/start)
acknowledge with success true and a "No browser." message; status and
listTabs return informational payloads without a success flag; every
response carries a message or error and never reaches a page method. -/
theorem noBrowser_operations_structured :
    (∀ op, (handleNoBrowser op).httpStatus = 200) ∧
    (∀ op, (handleNoBrowser op).invokedPage = false) ∧
    (handleNoBrowser ApiOp.dump).success = some false ∧
    (handleNoBrowser ApiOp.clear).success = some false ∧
    (handleNoBrowser ApiOp.tab).success = some false ∧
    (handleNoBrowser ApiOp.stop).success = some true ∧
    (handleNoBrowser ApiOp.start).success = some true ∧
    (handleNoBrowser ApiOp.status).success = none ∧
    (handleNoBrowser ApiOp.tabs).success = none ∧
    (∀ op, (handleNoBrowser op).message ≠ none ∨
      (handleNoBrowser op).errorField ≠ none) := by
  refine ⟨?_, ?_, rfl, rfl, rfl, rfl, rfl, rfl, rfl, ?_⟩ <;>
    intro op <;> cases op <;> simp [handleNoBrowser]

/-- Claim C4: a switchTab call with an invalid index (missing,
non-integer, non-positive, or exceeding the live tab count) returns a
structured failure result -- the out-of-range failure referencing the
index -- and leaves the session state (buffers and collectingPaused flag)
exactly as it was. -/
theorem switchTab_invalid_structured (indexParam : Option Str)
    (tabs : List Str) (st : TabSession)
    (h : ∀ i : Int, parsedIndex indexParam = some i → 1 ≤ i →
      tabs.length < i.toNat) :
    (tabHandler indexParam tabs st).1.success = some false ∧
    ((tabHandler indexParam tabs st).1.errorField =
        some (str "Missing or invalid index. Use /tab?index=1 (1-based tab number).") ∨
      ∃ i : Int, parsedIndex indexParam = some i ∧
        (tabHandler indexParam tabs st).1.errorField =
          some (str "Invalid tab index: " ++ natToStr i.toNat)) ∧
    (tabHandler indexParam tabs st).2 = st := by
  unfold tabHandler
  cases hp : parsedIndex indexParam with
  | none => exact ⟨rfl, Or.inl rfl, rfl⟩
  | some i =>
      dsimp only
      by_cases hi : i < 1
      · rw [if_pos hi]
        exact ⟨rfl, Or.inl rfl, rfl⟩
      · rw [if_neg hi]
        have h1 : 1 ≤ i := by omega
        have h2 : tabs.length < i.toNat := h i hp h1
        unfold switchToTab
        rw [dif_neg (by omega)]
        exact ⟨rfl, Or.inr ⟨i, rfl, rfl⟩, rfl⟩

/-- Witness for claim C4: switchTab(2) when only one tab exists. -/
theorem switchTab_invalid_structured_witness :
    (tabHandler (some (str "2")) [str "http://one"] ⟨[str "log"], [str "r1"], false, 1⟩).1.success = some false ∧
    ((tabHandler (some (str "2")) [str "http://one"] ⟨[str "log"], [str "r1"], false, 1⟩).1.errorField =
        some (str "Missing or invalid index. Use /tab?index=1 (1-based tab number).") ∨
      ∃ i : Int, parsedIndex (some (str "2")) = some i ∧
        (tabHandler (some (str "2")) [str "http://one"] ⟨[str "log"], [str "r1"], false, 1⟩).1.errorField =
          some (str "Invalid tab index: " ++ natToStr i.toNat)) ∧
    (tabHandler (some (str "2")) [str "http://one"] ⟨[str "log"], [str "r1"], false, 1⟩).2 =
      ⟨[str "log"], [str "r1"], false, 1⟩ :=
  switchTab_invalid_structured _ _ _ (by
    intro i hi hle
    rw [show parsedIndex (some (str "2")) = some 2 from by decide] at hi
    injection hi with h2
    subst h2
    decide)

/-- Membership in a fresh-query written contribution pins the artifact. -/
theorem mem_freshWritten {a a' : Artifact} {r : Except Str Str}
    (h : a ∈ freshWritten a' r) : a = a' := by
  cases r with
  | ok v => simpa [freshWritten] using h
  | error e => simp [freshWritten] at h

/-- Claim C5: a dump never throws (the writer is a total function and the
HTTP handler maps an exception to a 500 structured failure); its result
enumerates every artifact as written or skipped-with-reason; a failed
fresh query (cookies, DOM, screenshot) skips only its own artifact while
the buffer-derived files are always written. -/
theorem dump_partial_failure_enumeration (inp : DumpInputs) :
    (Artifact.consoleOverview ∈ (dumpBuffersToFiles inp).written ∧
     Artifact.networkOverview ∈ (dumpBuffersToFiles inp).written ∧
     Artifact.requestDetails ∈ (dumpBuffersToFiles inp).written) ∧
    (∀ a : Artifact, a ∈ (dumpBuffersToFiles inp).written ∨
      ∃ r, (a, r) ∈ (dumpBuffersToFiles inp).skipped) ∧
    (∀ e, inp.cookiesResult = Except.error e →
      (Artifact.cookies, e) ∈ (dumpBuffersToFiles inp).skipped ∧
      Artifact.cookies ∉ (dumpBuffersToFiles inp).written) ∧
    (∀ e, inp.domResult = Except.error e →
      (Artifact.dom, e) ∈ (dumpBuffersToFiles inp).skipped ∧
      Artifact.dom ∉ (dumpBuffersToFiles inp).written) ∧
    (∀ e, inp.screenshotResult = Except.error e →
      (Artifact.screenshot, e) ∈ (dumpBuffersToFiles inp).skipped ∧
      Artifact.screenshot ∉ (dumpBuffersToFiles inp).written) ∧
    (∀ e, dumpHandler (Except.error e) =
      ⟨500, some false, none, some e, false⟩) ∧
    (∀ r, dumpHandler (Except.ok r) =
      ⟨200, some true, some (str "Dump completed. Read the files below."),
        none, false⟩) := by
  refine ⟨⟨?_, ?_, ?_⟩, ?_, ?_, ?_, ?_, fun e => rfl, fun r => rfl⟩
  · simp [dumpBuffersToFiles]
  · simp [dumpBuffersToFiles]
  · simp [dumpBuffersToFiles]
  · intro a
    cases a with
    | consoleOverview => left; simp [dumpBuffersToFiles]
    | networkOverview => left; simp [dumpBuffersToFiles]
    | requestDetails => left; simp [dumpBuffersToFiles]
    | cookies =>
        cases hc : inp.cookiesResult with
        | ok v => left; simp [dumpBuffersToFiles, freshWritten, hc]
        | error e =>
            right
            exact ⟨e, by simp [dumpBuffersToFiles, freshSkipped, hc]⟩
    | dom =>
        cases hd : inp.domResult with
        | ok v => left; simp [dumpBuffersToFiles, freshWritten, hd]
        | error e =>
            right
            exact ⟨e, by simp [dumpBuffersToFiles, freshSkipped, hd]⟩
    | screenshot =>
        cases hs : inp.screenshotResult with
        | ok v => left; simp [dumpBuffersToFiles, freshWritten, hs]
        | error e =>
            right
            exact ⟨e, by simp [dumpBuffersToFiles, freshSkipped, hs]⟩
  · intro e he
    constructor
    · simp [dumpBuffersToFiles, freshSkipped, he]
    · intro hmem
      simp only [dumpBuffersToFiles, List.mem_append] at hmem
      rcases hmem with ((h | h) | h) | h
      · exact absurd h (by decide)
      · rw [he] at h
        simp [freshWritten] at h
      · exact absurd (mem_freshWritten h) (by decide)
      · exact absurd (mem_freshWritten h) (by decide)
  · intro e he
    constructor
    · simp [dumpBuffersToFiles, freshSkipped, he]
    · intro hmem
      simp only [dumpBuffersToFiles, List.mem_append] at hmem
      rcases hmem with ((h | h) | h) | h
      · exact absurd h (by decide)
      · exact absurd (mem_freshWritten h) (by decide)
      · rw [he] at h
        simp [freshWritten] at h
      · exact absurd (mem_freshWritten h) (by decide)
  · intro e he
    constructor
    · simp [dumpBuffersToFiles, freshSkipped, he]
    · intro hmem
      simp only [dumpBuffersToFiles, List.mem_append] at hmem
      rcases hmem with ((h | h) | h) | h
      · exact absurd h (by decide)
      · exact absurd (mem_freshWritten h) (by decide)
      · exact absurd (mem_freshWritten h) (by decide)
      · rw [he] at h
        simp [freshWritten] at h

/-- A string beginning with a non-whitespace character trims to a nonempty
string. -/
theorem jsTrim_ne_nil_of_head {m : Str} {c : Char} (hm : m.take 1 = [c])
    (hc : c.isWhitespace = false) : jsTrim m ≠ [] := by
  cases m with
  | nil => simp at hm
  | cons x xs =>
      simp only [List.take, List.take_zero] at hm
      have hx : x = c := by
        injection hm
      subst hx
      unfold jsTrim
      rw [show (x :: xs).dropWhile Char.isWhitespace = x :: xs from by
        simp [List.dropWhile_cons, hc]]
      unfold trimEnd
      intro hnil
      rw [List.reverse_eq_nil_iff, List.dropWhile_eq_nil_iff] at hnil
      have := hnil x (by simp)
      rw [hc] at this
      exact Bool.noConfusion this

/-- Claim C6, counterexample: the handler trims the part after `page.`
before the whitelist lookup, so the method string "page. goto" is NOT of
the form `page.<name>` with `<name>` in the whitelist, yet it is forwarded
(as `goto`) rather than rejected. -/
theorem puppeteer_whitelist_counterexample :
    dispatchPuppeteerMethod (some spacedMethod) =
      PuppeteerDispatch.forward (str "goto") ∧
    (∀ name ∈ PAGE_WHITELIST, spacedMethod ≠ str "page." ++ name) := by
  decide

/-- Claim C6 (amended): POST /puppeteer is restricted to a closed
allow-list: a call is forwarded if and only if the method is a `page.`
string whose whitespace-trimmed remainder is in `PAGE_WHITELIST`; every
other request is answered by a structured 400 failure before any page
method is invoked; and the whitelist-rejection message names every allowed
method. -/
theorem puppeteer_whitelist_amended :
    (∀ method name, dispatchPuppeteerMethod method =
        PuppeteerDispatch.forward name ↔
      ∃ m, method = some m ∧ m.take (str "page.").length = str "page." ∧
        name = jsTrim (m.drop (str "page.").length) ∧
        name ∈ PAGE_WHITELIST) ∧
    (∀ method, (∀ name, dispatchPuppeteerMethod method ≠
        PuppeteerDispatch.forward name) →
      ∃ emsg, puppeteerValidate method = Except.error (400, emsg)) ∧
    (∀ m w, w ∈ PAGE_WHITELIST → ∃ i, occursAt w (whitelistRejectionMsg m) i) := by
  refine ⟨?_, ?_, ?_⟩
  · intro method name
    constructor
    · intro h
      cases method with
      | none => exact absurd h (by simp [dispatchPuppeteerMethod])
      | some m =>
          refine ⟨m, rfl, ?_⟩
          unfold dispatchPuppeteerMethod at h
          dsimp only at h
          by_cases h1 : jsTrim m = []
          · rw [if_pos h1] at h
            exact PuppeteerDispatch.noConfusion h
          · rw [if_neg h1] at h
            by_cases h2 : m.take (str "page.").length ≠ str "page."
            · rw [if_pos h2] at h
              exact PuppeteerDispatch.noConfusion h
            · rw [if_neg h2] at h
              by_cases h3 : jsTrim (m.drop (str "page.").length) = [] ∨
                  jsTrim (m.drop (str "page.").length) ∉ PAGE_WHITELIST
              · rw [if_pos h3] at h
                exact PuppeteerDispatch.noConfusion h
              · rw [if_neg h3] at h
                have hpage := not_ne_iff.mp h2
                obtain ⟨h31, h32⟩ := not_or.mp h3
                have hname : jsTrim (m.drop (str "page.").length) = name := by
                  injection h
                exact ⟨hpage, hname.symm, hname ▸ not_not.mp h32⟩
    · rintro ⟨m, rfl, hpage, hname, hwl⟩
      have hhead : m.take 1 = ['p'] := by
        have h1 : (m.take (str "page.").length).take 1 = (str "page.").take 1 :=
          congrArg (List.take 1) hpage
        rw [List.take_take] at h1
        simpa using h1
      have htrim : jsTrim m ≠ [] := jsTrim_ne_nil_of_head hhead (by decide)
      have hmn : jsTrim (m.drop (str "page.").length) ≠ [] := by
        intro hnil
        rw [hname, hnil] at hwl
        exact (by decide : ([] : Str) ∉ PAGE_WHITELIST) hwl
      unfold dispatchPuppeteerMethod
      dsimp only
      rw [if_neg htrim, if_neg (not_ne_iff.mpr hpage),
        if_neg (not_or.mpr ⟨hmn, not_not_intro (hname ▸ hwl)⟩)]
      rw [hname]
  · intro method hforward
    cases hd : dispatchPuppeteerMethod method with
    | invalidMethod =>
        exact ⟨_, by unfold puppeteerValidate; rw [hd]⟩
    | notPageMethod =>
        exact ⟨_, by unfold puppeteerValidate; rw [hd]⟩
    | notWhitelisted =>
        exact ⟨_, by unfold puppeteerValidate; rw [hd]⟩
    | forward n => exact absurd hd (hforward n)
  · intro m w hw
    have hfind : (findFrom w WHITELIST_SORTED_JOINED 0).isSome = true := by
      fin_cases hw <;> set_option maxRecDepth 10000 in decide
    cases hf : findFrom w WHITELIST_SORTED_JOINED 0 with
    | none =>
        rw [hf] at hfind
        exact Bool.noConfusion hfind
    | some k =>
        have hocc : occursAt w WHITELIST_SORTED_JOINED k := findFrom_occurs hf
        refine ⟨(str "Method \x22").length + (m.length +
          ((str "\x22 not allowed. Whitelist: ").length + k)), ?_⟩
        unfold whitelistRejectionMsg
        exact occursAt_append_right _
          (occursAt_append_right _ (occursAt_append_right _ hocc))

/-- Loop `readBodyGo` resolves with the accumulated concatenation when the total
size stays within the limit. -/
theorem readBodyGo_ok (chunks : List (List Nat)) :
    ∀ (limit size : Nat) (acc : List Nat),
      size + (chunks.map List.length).sum ≤ limit →
      readBodyGo limit size acc chunks = Except.ok (acc ++ chunks.flatten) := by
  induction chunks with
  | nil =>
      intro limit size acc h
      simp [readBodyGo]
  | cons chunk rest ih =>
      intro limit size acc h
      simp only [List.map_cons, List.sum_cons] at h
      unfold readBodyGo
      rw [if_neg (by omega)]
      rw [ih limit (size + chunk.length) (acc ++ chunk) (by omega)]
      simp

/-- Loop `readBodyGo` rejects with `bodyTooLarge` as soon as the running size
exceeds the limit. -/
theorem readBodyGo_err (chunks : List (List Nat)) :
    ∀ (limit size : Nat) (acc : List Nat), size ≤ limit →
      size + (chunks.map List.length).sum > limit →
      readBodyGo limit size acc chunks = Except.error ReadBodyError.bodyTooLarge := by
  induction chunks with
  | nil =>
      intro limit size acc h1 h2
      simp at h2
      omega
  | cons chunk rest ih =>
      intro limit size acc h1 h2
      simp only [List.map_cons, List.sum_cons] at h2
      unfold readBodyGo
      by_cases hc : size + chunk.length > limit
      · rw [if_pos hc]
      · rw [if_neg hc]
        exact ih limit (size + chunk.length) (acc ++ chunk) (by omega) (by omega)

/-- Claim C9: a POST /puppeteer body whose total size exceeds
`MAX_BODY_BYTES` (5·1024·1024) is answered with a 413 structured failure
("Request body too large (max 5MB)") and the handler stops before any page
method is invoked, while any body at or under the limit resolves to the
full concatenation of its chunks. -/
theorem readBody_size_limit (chunks : List (List Nat)) :
    ((chunks.map List.length).sum > MAX_BODY_BYTES →
      puppeteerBodyPhase chunks = Except.error
        ⟨413, some false, none, some (str "Request body too large (max 5MB)"), false⟩) ∧
    ((chunks.map List.length).sum ≤ MAX_BODY_BYTES →
      readBody chunks MAX_BODY_BYTES = Except.ok chunks.flatten) := by
  constructor
  · intro h
    unfold puppeteerBodyPhase readBody
    rw [readBodyGo_err chunks MAX_BODY_BYTES 0 [] (Nat.zero_le _) (by omega)]
  · intro h
    unfold readBody
    rw [readBodyGo_ok chunks MAX_BODY_BYTES 0 [] (by omega)]
    simp

/-- Witness for claim C9: a single 5242881-byte chunk is rejected with the
413 structured failure; a two-byte body resolves to its concatenation. -/
theorem readBody_size_limit_witness :
    puppeteerBodyPhase [List.replicate 5242881 0] = Except.error
      ⟨413, some false, none, some (str "Request body too large (max 5MB)"), false⟩ ∧
    readBody [[104, 105]] MAX_BODY_BYTES = Except.ok ([[104, 105]] : List (List Nat)).flatten :=
  ⟨(readBody_size_limit [List.replicate 5242881 0]).1
      (by simp only [List.map_cons, List.map_nil, List.length_replicate,
        List.sum_cons, List.sum_nil, MAX_BODY_BYTES]; omega),
    (readBody_size_limit [[104, 105]]).2 (by decide)⟩

/-- Witness for claim C1: append "a","b","c", snapshot, then append "d" —
the snapshot contains exactly ["a","b","c"]. -/
theorem logBuffer_snapshot_exact_and_immutable_witness :
    snapshot (runBuffer ([str "a", str "b", str "c"].map BufOp.append)) =
      [str "a", str "b", str "c"] ∧
    (runAfterSnapshot
      ⟨runBuffer ([str "a", str "b", str "c"].map BufOp.append),
        snapshot (runBuffer ([str "a", str "b", str "c"].map BufOp.append))⟩
      [BufOp.append (str "d")]).snap = [str "a", str "b", str "c"] :=
  logBuffer_snapshot_exact_and_immutable [str "a", str "b", str "c"]
    [BufOp.append (str "d")]

/-- Witness for claim C3's amended theorem at the dump operation. -/
theorem noBrowser_operations_structured_witness :
    (handleNoBrowser ApiOp.dump).success = some false :=
  noBrowser_operations_structured.2.2.1

/-- Witness for claim C5: a dump whose DOM query failed skips only the DOM
artifact while the console overview is still written. -/
theorem dump_partial_failure_enumeration_witness :
    (Artifact.dom, str "navigated away") ∈
      (dumpBuffersToFiles ⟨[], [], Except.ok (str "c"),
        Except.error (str "navigated away"), Except.ok (str "s")⟩).skipped ∧
    Artifact.dom ∉
      (dumpBuffersToFiles ⟨[], [], Except.ok (str "c"),
        Except.error (str "navigated away"), Except.ok (str "s")⟩).written ∧
    Artifact.consoleOverview ∈
      (dumpBuffersToFiles ⟨[], [], Except.ok (str "c"),
        Except.error (str "navigated away"), Except.ok (str "s")⟩).written :=
  ⟨((dump_partial_failure_enumeration _).2.2.2.1 _ rfl).1,
   ((dump_partial_failure_enumeration _).2.2.2.1 _ rfl).2,
   (dump_partial_failure_enumeration _).1.1⟩

/-- Witness for claim C6's amended theorem: "page.goto" is forwarded as
`goto`. -/
theorem puppeteer_whitelist_amended_witness :
    dispatchPuppeteerMethod (some (str "page.goto")) =
      PuppeteerDispatch.forward (str "goto") :=
  (puppeteer_whitelist_amended.1 (some (str "page.goto")) (str "goto")).mpr
    ⟨str "page.goto", rfl, by decide, by decide, by decide⟩

/-- Witness for claim C8: a completed record is not materialized as
pending. -/
theorem materialize_incomplete_never_pending_witness :
    materializeStatus (ReqStatus.completed (str "200 OK")) ≠ ReqStatus.pending :=
  materialize_incomplete_never_pending.2.2 (ReqStatus.completed (str "200 OK"))

end BrowserMonitor
